import Mathlib

/-!
Verification development for the checkpointed conversation-state engine of the
minted-api repository.

The definitions below are a shallow embedding of
`src/lib/services/llm.service.ts` (class `LLMService`: graph nodes
`processMessages` / `invokeLLM`, `loadMessagesFromRefs`, `ask`, `askStream`,
`addFeatureNode`) and `src/lib/services/checkpoint.service.ts`
(class `DynamoDBCheckpointSaver`: `getTuple`, `putTuple`).

Modelling conventions:
- The DynamoDB table is a key/value association list.  The composite string
  keys of the source (`MSG#id`, `USER#u#CHAT#c`, `CHECKPOINT#id`,
  `USER#u#CHAT#c` / `USER#u` for GSI1PK) are represented structurally by the
  inductive types `Key` and `Gsi1Pk`; message ids produced by `uuidv7()` are
  represented by a fresh-id counter threaded through the `World` state.
- `Date.now()` is modelled by the `now` field of `World` (read-only here:
  no step of one turn depends on time advancing).
- JavaScript `undefined` for an optional string channel value is `none`;
  JS truthiness of strings (`""` is falsy) is modelled explicitly where the
  source branches on it.
- Asynchronous concurrency (`Promise.all`) in `ask` always joins operations
  that touch disjoint keys (a `MSG#` read/write against a `CHECKPOINT#`
  read/write), so it is modelled by an explicit sequentialisation.
-/

/-- Message content as handled by `getMessageContent` in llm.service.ts:
a plain string, an array of parts, or anything else (flattened to `""`). -/
inductive MsgContent where
  | str (s : String)
  | arr (parts : List MsgContent)
  | other

mutual
/-- `getMessageContent` (llm.service.ts lines 70-74): strings pass through,
arrays are flattened by mapping recursively and joining with `""`,
anything else yields `""`. -/
def getMessageContent : MsgContent → String
  | .str s => s
  | .arr cs => getMessageContentList cs
  | .other => ""

/-- `content.map(c => getMessageContent(c)).join('')` of the source. -/
def getMessageContentList : List MsgContent → String
  | [] => ""
  | c :: cs => getMessageContent c ++ getMessageContentList cs
end

/-- A LangChain chat message: `HumanMessage` or `AIMessage` with its content. -/
inductive ChatMsg where
  | human (content : MsgContent)
  | ai (content : MsgContent)

/-- `request.messages[0].content` accessor. -/
def ChatMsg.content : ChatMsg → MsgContent
  | .human c => c
  | .ai c => c

/-- `MessageReference` (llm.service.ts lines 48-51). -/
structure MessageReference where
  messageId : Nat
  isFromUser : Bool
deriving DecidableEq, Repr

/-- Structural form of the table's composite primary keys:
`MSG#id` (pk = sk for messages) and
`pk = USER#userId#CHAT#chatId`, `sk = CHECKPOINT#checkpointId`. -/
inductive Key where
  | msgKey (id : Nat)
  | ckptKey (userId : String) (chatId : String) (checkpointId : String)
deriving DecidableEq, Repr

/-- Structural form of the GSI1 partition keys:
`USER#userId#CHAT#chatId` for messages, `USER#userId` for checkpoints. -/
inductive Gsi1Pk where
  | userChat (userId : String) (chatId : String)
  | user (userId : String)
deriving DecidableEq, Repr

/-- A persisted message item (the `Item` of the `dynamoDB.put` calls in
llm.service.ts lines 216-230 and 318-332; the constant `type: 'MSG'`
discriminator is implicit in the constructor). -/
structure MessageItem where
  content : MsgContent
  isFromUser : Bool
  conversationId : String
  createdAt : Nat
  lastModified : Nat
  gsi1pk : Gsi1Pk
  gsi1sk : Nat

/-- `CheckpointMetadata`: `ask` always writes
`{ source: 'input', step: 1, writes: null, parents: {} }`; `writes`/`parents`
are constants and carried implicitly. -/
structure CkptMeta where
  source : String
  step : Nat
deriving DecidableEq, Repr

/-- The checkpoint `state` payload: `{ messageRefs: MessageReference[] }`. -/
structure CkptState where
  messageRefs : List MessageReference
deriving DecidableEq, Repr

/-- A stored table item: either a message record or a checkpoint record
(checkpoint.service.ts `Checkpoint` interface, lines 41-54). -/
inductive ItemVal where
  | msg (m : MessageItem)
  | ckpt (state : CkptState) (metadata : CkptMeta) (gsi1pk : Gsi1Pk) (gsi1sk : Nat)

/-- GSI1 partition key of an item. -/
def ItemVal.itemGsi1Pk : ItemVal → Gsi1Pk
  | .msg m => m.gsi1pk
  | .ckpt _ _ pk _ => pk

/-- The checkpoint fields of an item, as read by
`DynamoDBCheckpointSaver.getTuple` (`checkpoint.state`, `checkpoint.metadata`).
A message item never sits under a `CHECKPOINT#` key; reading it as a
checkpoint would give `undefined` fields, modelled as `none`. -/
def ItemVal.ckptFields : ItemVal → Option (CkptState × CkptMeta)
  | .ckpt st m _ _ => some (st, m)
  | .msg _ => none

/-- The `content` attribute of an item; a checkpoint item has none
(JS would yield `undefined`, which `getMessageContent` flattens to `""`). -/
def ItemVal.contentField : ItemVal → MsgContent
  | .msg m => m.content
  | .ckpt _ _ _ _ => .other

/-- The DynamoDB table: an association list from primary key to item. -/
abbrev Table := List (Key × ItemVal)

/-- `dynamoDB.put`: unconditional overwrite of the item at its key. -/
def Table.putItem (t : Table) (k : Key) (v : ItemVal) : Table :=
  (k, v) :: t.filter (fun kv => decide (kv.1 ≠ k))

/-- `dynamoDB.get`: lookup of the item at a key (`result.Item`). -/
def Table.getItem (t : Table) (k : Key) : Option ItemVal :=
  (t.find? (fun kv => decide (kv.1 = k))).map (fun kv => kv.2)

/-- `dynamoDB.query` on GSI1 with `GSI1PK = :pk`: every item of the matching
partition.  The index sort order (GSI1SK) is immaterial to the engine: the
only consumer builds an id-keyed map from the result, and ids are unique. -/
def Table.queryGSI1 (t : Table) (pk : Gsi1Pk) : List (Key × ItemVal) :=
  t.filter (fun kv => decide (kv.2.itemGsi1Pk = pk))

/-- JS `Map.get` over a list of entries built by the `Map` constructor:
entries are inserted left to right, later entries overwrite earlier ones. -/
def mapGet {α : Type} (entries : List (Nat × α)) (k : Nat) : Option α :=
  entries.foldl (fun acc e => if e.1 = k then some e.2 else acc) none

/-- Opaque store failure (`StoreUnavailable`-class errors thrown by the
underlying client). -/
abbrev StoreErr := String

/-- `DynamoDBCheckpointSaver.getTuple` (checkpoint.service.ts lines 84-104):
read `pk = USER#userId#CHAT#chatId`, `sk = CHECKPOINT#checkpointId`; return
`undefined` when the item is absent, else `[state, metadata]`. -/
def DynamoDBCheckpointSaver.getTuple (t : Table) (userId chatId checkpointId : String) :
    Option (CkptState × CkptMeta) :=
  (t.getItem (Key.ckptKey userId chatId checkpointId)).bind ItemVal.ckptFields

/-- `getTuple` as a function of the outcome of the underlying `dynamoDB.get`:
the `try/catch` logs and rethrows, so a store error propagates unchanged. -/
def DynamoDBCheckpointSaver.getTupleResult (r : Except StoreErr (Option ItemVal)) :
    Except StoreErr (Option (CkptState × CkptMeta)) :=
  match r with
  | .error e => .error e
  | .ok item => .ok (item.bind ItemVal.ckptFields)

/-- `DynamoDBCheckpointSaver.putTuple` (checkpoint.service.ts lines 114-140):
build the checkpoint item (`GSI1PK = USER#userId`, `GSI1SK = Date.now()`)
and `dynamoDB.put` it — an unconditional overwrite. -/
def DynamoDBCheckpointSaver.putTuple (t : Table) (userId chatId checkpointId : String)
    (state : CkptState) (metadata : CkptMeta) (now : Nat) : Table :=
  t.putItem (Key.ckptKey userId chatId checkpointId)
    (ItemVal.ckpt state metadata (Gsi1Pk.user userId) now)

/-! ### Engine data model (llm.service.ts) -/

/-- The `configurable` options of a `RunnableConfig` as consumed by the
engine: `userId` and `conversationId` (absent keys are `none`).
`askStream` additionally passes a `thread_id`, which nothing reads. -/
structure RunConfig where
  userId : Option String
  conversationId : Option String

/-- The source's `if (!userId || !conversationId)` checks: `undefined` and
`""` are both falsy, so the context is usable only when both strings are
present and non-empty. -/
def RunConfig.ctx (cfg : RunConfig) : Option (String × String) :=
  match cfg.userId, cfg.conversationId with
  | some u, some c => if u = "" ∨ c = "" then none else some (u, c)
  | _, _ => none

/-- The Model Gateway (the `ChatOpenAI` instance): `invoke` suspends until a
full response, `stream` produces the finite list of chunk contents. -/
structure Gateway where
  invoke : List ChatMsg → MsgContent
  streamChunks : List ChatMsg → List MsgContent

/-- The world threaded through one engine operation: the DynamoDB table, the
`uuidv7()` fresh-id counter, the clock, and (observability only) the list of
histories passed to the Model Gateway's `stream`. -/
structure World where
  table : Table
  nextId : Nat
  now : Nat
  streamedHistories : List (List ChatMsg)

/-- `GraphState` (llm.service.ts lines 56-63). -/
structure GraphState where
  messageRefs : List MessageReference
  responseChunk : Option String
  isStreaming : Bool

/-- A partial state update returned by a node (`Partial<GraphState>`);
`none` is an absent key.  For `responseChunk`, a key explicitly set to
`undefined` is also `none`: the channel reducer is `(x, y) => y ?? x`, under
which `undefined` and an absent key act identically. -/
structure GraphUpdate where
  messageRefs : Option (List MessageReference)
  responseChunk : Option String
  isStreaming : Option Bool

/-- The `messageRefs` channel reducer (llm.service.ts lines 145-150): append
only those references of `y` whose `messageId` is not already in `x`. -/
def mergeRefs (x y : List MessageReference) : List MessageReference :=
  x ++ y.filter (fun r => !(x.any (fun ref => ref.messageId == r.messageId)))

/-- Apply one node's partial update through the three channel reducers:
`messageRefs` via `mergeRefs`, `responseChunk` via `y ?? x`,
`isStreaming` via last-write-wins. -/
def applyUpdate (s : GraphState) (u : GraphUpdate) : GraphState where
  messageRefs := match u.messageRefs with
    | none => s.messageRefs
    | some y => mergeRefs s.messageRefs y
  responseChunk := match u.responseChunk with
    | none => s.responseChunk
    | some c => some c
  isStreaming := match u.isStreaming with
    | none => s.isStreaming
    | some b => b

/-- The input state passed to `graph.invoke` / `graph.stream`: both call
sites set `messageRefs` and `isStreaming` and leave `responseChunk` absent. -/
structure GraphInput where
  messageRefs : List MessageReference
  isStreaming : Bool

/-- Channel initialisation: defaults (`[]`, `undefined`, `false`), then the
input state merged in through the reducers. -/
def initChannels (input : GraphInput) : GraphState :=
  applyUpdate { messageRefs := [], responseChunk := none, isStreaming := false }
    { messageRefs := some input.messageRefs, responseChunk := none,
      isStreaming := some input.isStreaming }

/-- Errors thrown by the engine (`throw new Error(...)` sites):
`emptyModelResponse` = 'Empty response from LLM',
`missingContext` = 'Missing userId or conversationId in request',
`assistantResponseLost` = 'Failed to load assistant response',
`emptyAssistantResponse` = 'Empty response from assistant',
`typeError` = a JS TypeError from indexing an empty array. -/
inductive AskError where
  | emptyModelResponse
  | missingContext
  | assistantResponseLost
  | emptyAssistantResponse
  | typeError
deriving DecidableEq, Repr

/-- `LLMResponse` role. -/
inductive Role where
  | assistant
  | user
deriving DecidableEq, Repr

/-- `LLMResponse` (llm.types.ts). -/
structure LLMResponse where
  content : String
  role : Role
deriving DecidableEq, Repr

/-- `LLMStreamResponse` (llm.types.ts). -/
structure LLMStreamResponse where
  content : String
  done : Bool
deriving DecidableEq, Repr

/-- `LLMRequest` (llm.types.ts): messages plus userId / conversationId. -/
structure LLMRequest where
  messages : List ChatMsg
  userId : String
  conversationId : String

/-- The two wired graph nodes. -/
inductive NodeName where
  | processMessages
  | invokeLLM
deriving DecidableEq, Repr

/-- One element of the `graph.stream` output: the node that ran and the
partial update it returned (consumed as `step['invokeLLM']`). -/
structure GraphStep where
  node : NodeName
  update : GraphUpdate

/-- One entry of the id-keyed message map built by `loadMessagesFromRefs`:
`[item.pk.replace('MSG#', ''), { content: item.content, isFromUser:
item.isFromUser }]` — the id is the structural payload of a `msgKey`. -/
def msgMapEntry (kv : Key × ItemVal) : Option (Nat × (MsgContent × Bool)) :=
  match kv.1, kv.2 with
  | Key.msgKey id, ItemVal.msg m => some (id, (m.content, m.isFromUser))
  | _, _ => none

/-- `loadMessagesFromRefs` (llm.service.ts lines 248-292).  Returns the
reconstructed messages together with the number of `dynamoDB.query` calls
issued.  Empty refs short-circuit; a missing/falsy `userId`/`conversationId`
logs and returns `[]`; otherwise one bulk GSI1 query is issued, an id-keyed
map is built from the result (`item.pk.replace('MSG#', '')` is the structural
id of a `msgKey`), and the refs are projected through the map in their
original order, dropping refs with no match. -/
def LLMService.loadMessagesFromRefs (t : Table) (cfg : RunConfig)
    (refs : List MessageReference) : List ChatMsg × Nat :=
  if refs.length = 0 then ([], 0)
  else
    match cfg.ctx with
    | none => ([], 0)
    | some (userId, conversationId) =>
      let result := t.queryGSI1 (Gsi1Pk.userChat userId conversationId)
      let messageMap : List (Nat × (MsgContent × Bool)) := result.filterMap msgMapEntry
      (refs.filterMap (fun ref =>
        (mapGet messageMap ref.messageId).map (fun message =>
          if ref.isFromUser then ChatMsg.human message.1 else ChatMsg.ai message.1)), 1)

/-- The `processMessages` node (llm.service.ts lines 165-170): returns
`{ responseChunk: undefined }` — under the `y ?? x` reducer a no-op. -/
def LLMService.processMessages (_s : GraphState) (w : World) :
    World × Except AskError GraphUpdate :=
  (w, .ok { messageRefs := none, responseChunk := none, isStreaming := none })

/-- The `invokeLLM` node (llm.service.ts lines 173-243).  Streaming branch:
accumulate every chunk, synthesise one assistant reference (fresh id) iff the
accumulated text is non-empty, return `responseChunk: undefined`, and write
nothing to the store.  Non-streaming branch: reject empty flattened content,
generate a fresh assistant id, require `userId`/`conversationId` from the
config, persist the assistant message, and append its reference unless the
id is already present. -/
def LLMService.invokeLLM (gw : Gateway) (cfg : RunConfig) (state : GraphState)
    (w : World) : World × Except AskError GraphUpdate :=
  let currentMessages := (LLMService.loadMessagesFromRefs w.table cfg state.messageRefs).1
  if state.isStreaming then
    let chunks := gw.streamChunks currentMessages
    let w₁ := { w with streamedHistories := w.streamedHistories ++ [currentMessages] }
    let accumulatedContent := chunks.foldl (fun acc chunk => acc ++ getMessageContent chunk) ""
    if accumulatedContent = "" then
      (w₁, .ok { messageRefs := some state.messageRefs, responseChunk := none,
                 isStreaming := none })
    else
      ({ w₁ with nextId := w₁.nextId + 1 },
       .ok { messageRefs := some (state.messageRefs ++ [⟨w₁.nextId, false⟩]),
             responseChunk := none, isStreaming := none })
  else
    let responseContent := getMessageContent (gw.invoke currentMessages)
    if responseContent = "" then
      (w, .error .emptyModelResponse)
    else
      let assistantMessageId := w.nextId
      let w₁ := { w with nextId := w.nextId + 1 }
      match cfg.ctx with
      | none => (w₁, .error .missingContext)
      | some (userId, conversationId) =>
        let assistantItem : ItemVal :=
          ItemVal.msg { content := .str responseContent, isFromUser := false,
                        conversationId := conversationId, createdAt := w₁.now,
                        lastModified := w₁.now,
                        gsi1pk := Gsi1Pk.userChat userId conversationId,
                        gsi1sk := w₁.now }
        let w₂ := { w₁ with
          table := w₁.table.putItem (Key.msgKey assistantMessageId) assistantItem }
        let newMessageRefs :=
          if state.messageRefs.any (fun ref => ref.messageId == assistantMessageId)
          then state.messageRefs
          else state.messageRefs ++ [⟨assistantMessageId, false⟩]
        (w₂, .ok { messageRefs := some newMessageRefs,
                   responseChunk := some responseContent, isStreaming := none })

/-- `graph.invoke`: initialise channels from the input, run
`processMessages` then `invokeLLM` (edges `START → processMessages →
invokeLLM → END`), applying each node's update through the reducers, and
return the final channel values. -/
def graphInvoke (gw : Gateway) (cfg : RunConfig) (input : GraphInput)
    (w : World) : World × Except AskError GraphState :=
  let s₀ := initChannels input
  match LLMService.processMessages s₀ w with
  | (w₁, .error e) => (w₁, .error e)
  | (w₁, .ok u₁) =>
    let s₁ := applyUpdate s₀ u₁
    match LLMService.invokeLLM gw cfg s₁ w₁ with
    | (w₂, .error e) => (w₂, .error e)
    | (w₂, .ok u₂) => (w₂, .ok (applyUpdate s₁ u₂))

/-- `graph.stream`: same execution as `graphInvoke`, but the per-node
partial updates are the stream elements handed to the consumer. -/
def graphStreamSteps (gw : Gateway) (cfg : RunConfig) (input : GraphInput)
    (w : World) : World × Except AskError (List GraphStep) :=
  let s₀ := initChannels input
  match LLMService.processMessages s₀ w with
  | (w₁, .error e) => (w₁, .error e)
  | (w₁, .ok u₁) =>
    let s₁ := applyUpdate s₀ u₁
    match LLMService.invokeLLM gw cfg s₁ w₁ with
    | (w₂, .error e) => (w₂, .error e)
    | (w₂, .ok u₂) =>
      (w₂, .ok [⟨NodeName.processMessages, u₁⟩, ⟨NodeName.invokeLLM, u₂⟩])

/-- `checkpoint?.[0]?.messageRefs || []`: the `latest` refs of a scope, or
`[]` when no checkpoint exists. -/
def latestRefs (t : Table) (userId conversationId : String) : List MessageReference :=
  match DynamoDBCheckpointSaver.getTuple t userId conversationId "latest" with
  | some (st, _) => st.messageRefs
  | none => []

/-- The body of `LLMService.ask` (llm.service.ts lines 307-388).
Steps, in source order: generate the user-message id; read the `latest`
checkpoint and persist the user message (`Promise.all` over disjoint keys);
build the initial graph state `latestRefs ++ [userRef]` with
`isStreaming = false`; run the graph with `userId`/`conversationId` in the
configurable context; then read the message of the last final-state ref and
overwrite the `latest` checkpoint (`Promise.all` over disjoint keys again);
reject a missing (`assistantResponseLost`) or empty
(`emptyAssistantResponse`, no trimming) last message. -/
def LLMService.askCore (gw : Gateway) (req : LLMRequest) (w : World) :
    World × Except AskError LLMResponse :=
  match req.messages with
  | [] => (w, .error .typeError)
  | firstMessage :: _ =>
    let userMessageId := w.nextId
    let w₁ := { w with nextId := w.nextId + 1 }
    let userItem : ItemVal :=
      ItemVal.msg { content := firstMessage.content, isFromUser := true,
                    conversationId := req.conversationId, createdAt := w₁.now,
                    lastModified := w₁.now,
                    gsi1pk := Gsi1Pk.userChat req.userId req.conversationId,
                    gsi1sk := w₁.now }
    let initialRefs := latestRefs w₁.table req.userId req.conversationId
      ++ [⟨userMessageId, true⟩]
    let w₂ := { w₁ with table := w₁.table.putItem (Key.msgKey userMessageId) userItem }
    match graphInvoke gw { userId := some req.userId, conversationId := some req.conversationId }
        { messageRefs := initialRefs, isStreaming := false } w₂ with
    | (w₃, .error e) => (w₃, .error e)
    | (w₃, .ok finalState) =>
      match finalState.messageRefs.getLast? with
      | none => (w₃, .error .typeError)
      | some lastMessageRef =>
        let lastMessage := w₃.table.getItem (Key.msgKey lastMessageRef.messageId)
        let w₄ := { w₃ with
          table := DynamoDBCheckpointSaver.putTuple w₃.table req.userId
            req.conversationId "latest" ⟨finalState.messageRefs⟩ ⟨"input", 1⟩ w₃.now }
        match lastMessage with
        | none => (w₄, .error .assistantResponseLost)
        | some item =>
          let responseContent := getMessageContent item.contentField
          if responseContent = "" then (w₄, .error .emptyAssistantResponse)
          else (w₄, .ok { content := responseContent, role := .assistant })

/-- The body of `LLMService.askStream` (llm.service.ts lines 406-437).
Reads the `latest` checkpoint, runs the graph with `isStreaming = true`, and
yields `{content, done:false}` for every stream step whose `invokeLLM` update
carries a truthy (non-empty) `responseChunk`, followed by exactly one
`{content:"", done:true}` sentinel (both branches of the source's final `if`
yield it).  Note the configurable options carry only a `thread_id`:
`userId` and `conversationId` are absent. -/
def LLMService.askStreamCore (gw : Gateway) (req : LLMRequest) (w : World) :
    World × Except AskError (List LLMStreamResponse) :=
  let initialRefs := latestRefs w.table req.userId req.conversationId
  match graphStreamSteps gw { userId := none, conversationId := none }
      { messageRefs := initialRefs, isStreaming := true } w with
  | (w₁, .error e) => (w₁, .error e)
  | (w₁, .ok steps) =>
    let contentYields := steps.filterMap (fun step =>
      match step.node, step.update.responseChunk with
      | NodeName.invokeLLM, some c =>
        if c = "" then none else some ({ content := c, done := false } : LLMStreamResponse)
      | _, _ => none)
    (w₁, .ok (contentYields ++ [{ content := "", done := true }]))

/-- Errors surfaced by the service's graph-management methods:
`graphAlreadyCompiled` is thrown by `addFeatureNode`'s own guard ('Cannot
add nodes after the graph has been compiled.'); `invalidNodeName` stands
for the throw of the delegated `StateGraph.addNode` on a duplicate node
name or a reserved one (`__start__` / `__end__`); `unreachableFeatureNode`
stands for the `StateGraph.compile()` validation throw when a registered
feature node was never wired with edges (the class exposes no edge API, so
every registered feature node stays unwired — the source's own warning:
'Edges must be manually configured before compiling.'). -/
inductive LLMServiceError where
  | graphAlreadyCompiled
  | invalidNodeName
  | unreachableFeatureNode
deriving DecidableEq, Repr

/-- The per-instance mutable state of `LLMService` that the claims depend on:
whether `compiledGraph` is non-null, and the names of the feature nodes
registered on the graph definition beyond the two built-in nodes. -/
structure LLMService where
  compiledGraph : Bool
  featureNodes : List String

/-- The node names present on every graph definition from construction
(`buildGraphDefinition` registers both). -/
def LLMService.builtinNodes : List String := ["processMessages", "invokeLLM"]

/-- The constructor's initial state: `compiledGraph = null`, no feature
nodes. -/
def LLMService.make : LLMService := { compiledGraph := false, featureNodes := [] }

/-- `compileGraph` (llm.service.ts lines 121-135): returns the cached graph
when already compiled; otherwise wires `START → processMessages → invokeLLM
→ END` and calls `compile()`, whose validation throws on any registered
feature node left without edges — in that case the exception propagates and
`compiledGraph` stays null. -/
def LLMService.compileGraph (svc : LLMService) : Except LLMServiceError LLMService :=
  if svc.compiledGraph then .ok svc
  else if svc.featureNodes = [] then .ok { svc with compiledGraph := true }
  else .error .unreachableFeatureNode

/-- `LLMService.ask`: `compileGraph()` runs first; if its lazy compilation
throws, the turn never starts and the instance is unchanged; otherwise the
turn body executes on the (now permanently) compiled instance. -/
def LLMService.ask (svc : LLMService) (gw : Gateway) (req : LLMRequest)
    (w : World) : LLMService × World × Except (LLMServiceError ⊕ AskError) LLMResponse :=
  match svc.compileGraph with
  | .error e => (svc, w, .error (.inl e))
  | .ok svc' =>
    match LLMService.askCore gw req w with
    | (w', .ok resp) => (svc', w', .ok resp)
    | (w', .error e) => (svc', w', .error (.inr e))

/-- `LLMService.askStream`: `compileGraph()` runs first, with the same
failure behavior as `ask`; then the stream body executes. -/
def LLMService.askStream (svc : LLMService) (gw : Gateway) (req : LLMRequest)
    (w : World) :
    LLMService × World × Except (LLMServiceError ⊕ AskError) (List LLMStreamResponse) :=
  match svc.compileGraph with
  | .error e => (svc, w, .error (.inl e))
  | .ok svc' =>
    match LLMService.askStreamCore gw req w with
    | (w', .ok out) => (svc', w', .ok out)
    | (w', .error e) => (svc', w', .error (.inr e))

/-- `addFeatureNode` (llm.service.ts lines 472-479): throws
`GraphAlreadyCompiled` when `compiledGraph` is non-null; otherwise delegates
to `StateGraph.addNode`, which itself throws on a duplicate or reserved
node name and registers the node otherwise. -/
def LLMService.addFeatureNode (svc : LLMService) (nodeName : String) :
    Except LLMServiceError LLMService :=
  if svc.compiledGraph then .error .graphAlreadyCompiled
  else if nodeName ∈ LLMService.builtinNodes ++ svc.featureNodes
       ∨ nodeName = "__start__" ∨ nodeName = "__end__" then .error .invalidNodeName
  else .ok { svc with featureNodes := svc.featureNodes ++ [nodeName] }

/-- A sequence of sequential `ask` calls: runs each request in order and
reports whether every call succeeded. -/
def askSeq (gw : Gateway) (reqs : List LLMRequest) (w : World) : World × Bool :=
  match reqs with
  | [] => (w, true)
  | r :: rest =>
    match LLMService.askCore gw r w with
    | (w', .ok _) => askSeq gw rest w'
    | (w', .error _) => (w', false)

/-- The `isFromUser` pattern of a checkpoint after `n` completed turns:
user ref then assistant ref, `n` times. -/
def userAssistantPattern : Nat → List Bool
  | 0 => []
  | n + 1 => userAssistantPattern n ++ [true, false]

/-- The assistant-message `Item` persisted by `invokeLLM`
(llm.service.ts lines 216-230). -/
def assistantMsgItem (content : String) (uid cid : String) (now : Nat) : ItemVal :=
  ItemVal.msg { content := .str content, isFromUser := false, conversationId := cid,
                createdAt := now, lastModified := now,
                gsi1pk := Gsi1Pk.userChat uid cid, gsi1sk := now }

/-- The user-message `Item` persisted by `ask` (llm.service.ts
lines 318-332). -/
def userMsgItem (content : MsgContent) (uid cid : String) (now : Nat) : ItemVal :=
  ItemVal.msg { content := content, isFromUser := true, conversationId := cid,
                createdAt := now, lastModified := now,
                gsi1pk := Gsi1Pk.userChat uid cid, gsi1sk := now }

/-- The world after `ask`'s final checkpoint overwrite. -/
def askFinalWorld (w₃ : World) (uid cid : String) (refs : List MessageReference) : World :=
  { w₃ with
    table := DynamoDBCheckpointSaver.putTuple w₃.table uid cid "latest"
      ⟨refs⟩ ⟨"input", 1⟩ w₃.now }

/-- Invariant of a scope's `latest` checkpoint after `k` completed turns:
the refs alternate user/assistant `k` times in conversational order, carry
no duplicate `messageId`, every id is below the fresh-id counter `bound`,
and for `k ≠ 0` the checkpoint record actually exists. -/
def ckptInv (t : Table) (u c : String) (k : Nat) (bound : Nat) : Prop :=
  ((latestRefs t u c).map (fun r => r.isFromUser) = userAssistantPattern k) ∧
  ((latestRefs t u c).map (fun r => r.messageId)).Nodup ∧
  (∀ r ∈ latestRefs t u c, r.messageId < bound) ∧
  (k ≠ 0 → ∃ meta, DynamoDBCheckpointSaver.getTuple t u c "latest"
      = some (⟨latestRefs t u c⟩, meta))

/-! ### Concrete fixtures used by counterexamples and witnesses -/

/-- A fresh world: empty table, id counter at 0. -/
def emptyWorld : World := { table := [], nextId := 0, now := 0, streamedHistories := [] }

/-- A first-turn request on scope (u, c). -/
def reqHello : LLMRequest :=
  { messages := [ChatMsg.human (.str "Hello")], userId := "u", conversationId := "c" }

/-- A follow-up request on the same scope. -/
def reqFollowUp : LLMRequest :=
  { messages := [ChatMsg.human (.str "How are you?")], userId := "u", conversationId := "c" }

/-- A gateway whose `invoke` answers with whitespace-only content. -/
def gwWhitespace : Gateway := { invoke := fun _ => .str " ", streamChunks := fun _ => [] }

/-- A gateway whose `invoke` answers "Hi there". -/
def gwHiThere : Gateway := { invoke := fun _ => .str "Hi there", streamChunks := fun _ => [] }

/-- A gateway whose `invoke` answers with empty content. -/
def gwEmptyResp : Gateway := { invoke := fun _ => .str "", streamChunks := fun _ => [] }

/-- A gateway whose `stream` produces the chunks "Stream" and "ing response". -/
def gwTwoChunks : Gateway :=
  { invoke := fun _ => .str "", streamChunks := fun _ => [.str "Stream", .str "ing response"] }

/-- The world after one successful "Hello" / "Hi there" turn on scope (u, c):
messages 0 and 1 are stored and the latest checkpoint holds their refs. -/
def worldAfterTurn : World := (LLMService.askCore gwHiThere reqHello emptyWorld).1

/-- A table holding a message and another scope's checkpoint, but no
checkpoint for scope (u, c). -/
def tableNoCkpt : Table :=
  [(Key.msgKey 0,
    ItemVal.msg { content := .str "Hello", isFromUser := true, conversationId := "c",
                  createdAt := 0, lastModified := 0,
                  gsi1pk := Gsi1Pk.userChat "u" "c", gsi1sk := 0 }),
   (Key.ckptKey "other" "x" "latest",
    ItemVal.ckpt ⟨[]⟩ ⟨"input", 1⟩ (Gsi1Pk.user "other") 0)]

/-- A fresh service instance carrying one registered (but unwired) feature
node. -/
def svcWithCustom : LLMService :=
  { compiledGraph := false, featureNodes := ["customFeature"] }

/-! ### Store lemmas -/

theorem Table.getItem_putItem_same (t : Table) (k : Key) (v : ItemVal) :
    (t.putItem k v).getItem k = some v := by
  simp [Table.putItem, Table.getItem, List.find?]

theorem List.find?_filter_of_imp {α : Type} (l : List α) (p q : α → Bool)
    (h : ∀ a, p a = true → q a = true) :
    (l.filter q).find? p = l.find? p := by
  induction l with
  | nil => rfl
  | cons a l ih =>
    by_cases hp : p a = true
    · have hq := h a hp
      simp [List.filter, hq, List.find?, hp, ih]
    · have hp' : p a = false := by
        cases hpa : p a
        · rfl
        · exact absurd hpa hp
      by_cases hq : q a = true
      · simp [List.filter, hq, List.find?, hp', ih]
      · have hq' : q a = false := by
          cases hqa : q a
          · rfl
          · exact absurd hqa hq
        simp [List.filter, hq', List.find?, hp', ih]

theorem Table.getItem_putItem_ne (t : Table) (k k' : Key) (v : ItemVal)
    (h : k' ≠ k) :
    (t.putItem k v).getItem k' = t.getItem k' := by
  have hk : decide (k = k') = false := by
    simp [decide_eq_false_iff_not]
    exact fun he => h he.symm
  unfold Table.putItem Table.getItem
  rw [List.find?]
  simp only [hk]
  rw [List.find?_filter_of_imp]
  intro a ha
  have : a.1 = k' := of_decide_eq_true ha
  simp [this]
  exact h

theorem DynamoDBCheckpointSaver.getTuple_putTuple_same (t : Table)
    (u c cid : String) (st : CkptState) (m : CkptMeta) (now : Nat) :
    DynamoDBCheckpointSaver.getTuple (DynamoDBCheckpointSaver.putTuple t u c cid st m now) u c cid
      = some (st, m) := by
  simp [DynamoDBCheckpointSaver.getTuple, DynamoDBCheckpointSaver.putTuple,
    Table.getItem_putItem_same, ItemVal.ckptFields]

theorem DynamoDBCheckpointSaver.getTuple_putItem_msg (t : Table)
    (i : Nat) (v : ItemVal) (u c cid : String) :
    DynamoDBCheckpointSaver.getTuple (t.putItem (Key.msgKey i) v) u c cid
      = DynamoDBCheckpointSaver.getTuple t u c cid := by
  unfold DynamoDBCheckpointSaver.getTuple
  rw [Table.getItem_putItem_ne]
  intro h
  exact Key.noConfusion h

/-! ### Graph-execution lemmas -/

theorem mergeRefs_nil (y : List MessageReference) : mergeRefs [] y = y := by
  simp [mergeRefs]

theorem applyUpdate_noop (s : GraphState) :
    applyUpdate s { messageRefs := none, responseChunk := none, isStreaming := none } = s := by
  cases s
  simp [applyUpdate]

theorem initChannels_eq (input : GraphInput) :
    initChannels input =
      { messageRefs := input.messageRefs, responseChunk := none,
        isStreaming := input.isStreaming } := by
  simp [initChannels, applyUpdate, mergeRefs_nil]

theorem graphInvoke_eq (gw : Gateway) (cfg : RunConfig) (input : GraphInput) (w : World) :
    graphInvoke gw cfg input w =
      match LLMService.invokeLLM gw cfg (initChannels input) w with
      | (w₂, .error e) => (w₂, .error e)
      | (w₂, .ok u₂) => (w₂, .ok (applyUpdate (initChannels input) u₂)) := by
  simp [graphInvoke, LLMService.processMessages, applyUpdate_noop]

theorem graphStreamSteps_eq (gw : Gateway) (cfg : RunConfig) (input : GraphInput) (w : World) :
    graphStreamSteps gw cfg input w =
      match LLMService.invokeLLM gw cfg (initChannels input) w with
      | (w₂, .error e) => (w₂, .error e)
      | (w₂, .ok u₂) =>
        (w₂, .ok [⟨NodeName.processMessages,
                   { messageRefs := none, responseChunk := none, isStreaming := none }⟩,
                  ⟨NodeName.invokeLLM, u₂⟩]) := by
  simp [graphStreamSteps, LLMService.processMessages, applyUpdate_noop]

/-- In streaming mode, `invokeLLM` always succeeds, never touches the table,
records exactly one gateway stream call, returns `responseChunk: undefined`,
and either keeps the refs or appends one synthesized assistant ref carrying
the fresh id. -/
theorem LLMService.invokeLLM_streaming (gw : Gateway) (cfg : RunConfig)
    (s : GraphState) (w : World) (hs : s.isStreaming = true) :
    ∃ w' refs,
      LLMService.invokeLLM gw cfg s w =
        (w', .ok { messageRefs := some refs, responseChunk := none, isStreaming := none }) ∧
      w'.table = w.table ∧
      w'.streamedHistories = w.streamedHistories
        ++ [(LLMService.loadMessagesFromRefs w.table cfg s.messageRefs).1] ∧
      (refs = s.messageRefs ∨ refs = s.messageRefs ++ [⟨w.nextId, false⟩]) := by
  unfold LLMService.invokeLLM
  rw [hs]
  simp only [if_true]
  by_cases hacc : ((gw.streamChunks (LLMService.loadMessagesFromRefs w.table cfg s.messageRefs).1).foldl
      (fun acc chunk => acc ++ getMessageContent chunk) "") = ""
  · refine ⟨{ w with streamedHistories := w.streamedHistories
        ++ [(LLMService.loadMessagesFromRefs w.table cfg s.messageRefs).1] },
      s.messageRefs, by simp [hacc], rfl, rfl, Or.inl rfl⟩
  · refine ⟨{ w with nextId := w.nextId + 1, streamedHistories := w.streamedHistories
        ++ [(LLMService.loadMessagesFromRefs w.table cfg s.messageRefs).1] },
      s.messageRefs ++ [⟨w.nextId, false⟩], by simp [hacc], rfl, rfl, Or.inr rfl⟩

/-! ### Claim C5 -/

/-- C5: Checkpoint Store `put` is an idempotent overwrite — calling
`putTuple` twice with identical `(scope, checkpointId, state, metadata)` is
not an error (it is total) and leaves `getTuple` for that scope and
checkpoint id returning exactly the state and metadata that were put, even
when the internally stamped ordering timestamps differ; a single `putTuple`
followed by `getTuple` returns the same. -/
theorem C5_idempotent_checkpoint_put (t : Table) (u c cid : String)
    (st : CkptState) (m : CkptMeta) (now₁ now₂ : Nat) :
    DynamoDBCheckpointSaver.getTuple
        (DynamoDBCheckpointSaver.putTuple
          (DynamoDBCheckpointSaver.putTuple t u c cid st m now₁) u c cid st m now₂)
        u c cid = some (st, m) ∧
    DynamoDBCheckpointSaver.getTuple
        (DynamoDBCheckpointSaver.putTuple t u c cid st m now₁) u c cid = some (st, m) :=
  ⟨DynamoDBCheckpointSaver.getTuple_putTuple_same _ u c cid st m now₂,
   DynamoDBCheckpointSaver.getTuple_putTuple_same t u c cid st m now₁⟩

/-! ### Claim C8 -/

/-- C8: `getTuple` with the `latest` sentinel returns not-found (`none`,
not an error) for every table in which no checkpoint was ever written for
the scope, and when the underlying store read fails the error is propagated
to the caller unchanged (no retry in this layer); reading through
`getTupleResult` agrees with the pure `getTuple` on success. -/
theorem C8_getLatest_initial_and_error_propagation (t : Table) (u c : String)
    (h : ∀ kv ∈ t, kv.1 ≠ Key.ckptKey u c "latest") (e : StoreErr) :
    DynamoDBCheckpointSaver.getTuple t u c "latest" = none ∧
    DynamoDBCheckpointSaver.getTupleResult (.error e) = .error e ∧
    DynamoDBCheckpointSaver.getTupleResult (.ok (t.getItem (Key.ckptKey u c "latest")))
      = .ok (DynamoDBCheckpointSaver.getTuple t u c "latest") := by
  refine ⟨?_, rfl, rfl⟩
  unfold DynamoDBCheckpointSaver.getTuple Table.getItem
  have hnone : t.find? (fun kv => decide (kv.1 = Key.ckptKey u c "latest")) = none := by
    rw [List.find?_eq_none]
    intro kv hkv
    simp only [decide_eq_true_eq]
    exact h kv hkv
  rw [hnone]
  rfl

/-- Witness for C8 on a concrete table that holds a message and a foreign
scope's checkpoint but no checkpoint for (u, c). -/
theorem C8_witness :
    DynamoDBCheckpointSaver.getTuple tableNoCkpt "u" "c" "latest" = none ∧
    DynamoDBCheckpointSaver.getTupleResult (.error "boom") = .error "boom" ∧
    DynamoDBCheckpointSaver.getTupleResult
        (.ok (tableNoCkpt.getItem (Key.ckptKey "u" "c" "latest")))
      = .ok (DynamoDBCheckpointSaver.getTuple tableNoCkpt "u" "c" "latest") :=
  C8_getLatest_initial_and_error_propagation tableNoCkpt "u" "c" (by decide) "boom"

/-! ### Claim C9 -/

/-- C9: every `askStream` run that completes yields a finite sequence whose
last element is `{content:"", done:true}`, yielded exactly once (every
earlier element has `done = false`), with nothing after the sentinel. -/
theorem C9_streaming_sentinel (gw : Gateway) (req : LLMRequest) (w : World) :
    ∃ chunks, (LLMService.askStreamCore gw req w).2
        = .ok (chunks ++ [{ content := "", done := true }]) ∧
      ∀ ch ∈ chunks, ch.done = false := by
  simp only [LLMService.askStreamCore, graphStreamSteps_eq]
  obtain ⟨w', refs, heq, -, -, -⟩ := LLMService.invokeLLM_streaming gw ⟨none, none⟩
    (initChannels ⟨latestRefs w.table req.userId req.conversationId, true⟩) w
    (by rw [initChannels_eq])
  rw [heq]
  exact ⟨[], rfl, by simp⟩

/-! ### Claim C10 -/

/-- C10 counterexample: registration before the first `ask` does not always
succeed — `addFeatureNode('processMessages')` hits the delegated
`StateGraph.addNode` duplicate-name throw — and `addFeatureNode` after an
`ask` call does not always raise `GraphAlreadyCompiled`: on an instance
carrying a successfully registered (but unwired) feature node, the `ask`
call's lazy `compile()` throws, `compiledGraph` stays null, and a subsequent
`addFeatureNode` with a fresh name succeeds. -/
theorem C10_counterexample :
    (LLMService.make.addFeatureNode "processMessages"
      = .error .invalidNodeName) ∧
    (LLMService.make.addFeatureNode "customFeature" = .ok svcWithCustom) ∧
    ((svcWithCustom.ask gwHiThere reqHello emptyWorld).2.2
      = .error (.inl .unreachableFeatureNode)) ∧
    ((svcWithCustom.ask gwHiThere reqHello emptyWorld).1.compiledGraph = false) ∧
    ((svcWithCustom.ask gwHiThere reqHello emptyWorld).1.addFeatureNode "customFeature2"
      = .ok { svcWithCustom with
              featureNodes := svcWithCustom.featureNodes ++ ["customFeature2"] }) :=
  ⟨rfl, rfl, rfl, rfl, rfl⟩

/-- C10 (amended): `addFeatureNode` with a fresh, non-reserved node name
succeeds before the first `ask`/`askStream`; after an `ask`/`askStream`
call on an instance whose lazy compilation succeeds — in particular on any
instance with no unwired feature nodes registered — `addFeatureNode` raises
`GraphAlreadyCompiled`; and once the graph is compiled (any turn has
actually run), registration of any name whatsoever fails with
`GraphAlreadyCompiled`, so the executed topology is immutable.  (A
duplicate or reserved name throws the delegated `addNode` error even before
compilation, and an `ask` whose lazy `compile()` threw on an unwired
feature node leaves `compiledGraph` null — see the counterexample.) -/
theorem C10_graph_immutability (svc : LLMService) (gw gw' : Gateway)
    (req req' : LLMRequest) (w w' : World) (n₁ n₂ n₃ : String)
    (h : svc.compiledGraph = false)
    (hnofeat : svc.featureNodes = [])
    (hfresh : n₃ ∉ LLMService.builtinNodes ++ svc.featureNodes)
    (hres : ¬(n₃ = "__start__" ∨ n₃ = "__end__")) :
    ((svc.ask gw req w).1.addFeatureNode n₁ = .error .graphAlreadyCompiled) ∧
    ((svc.askStream gw' req' w').1.addFeatureNode n₂ = .error .graphAlreadyCompiled) ∧
    (svc.addFeatureNode n₃ = .ok { svc with featureNodes := svc.featureNodes ++ [n₃] }) ∧
    (∀ (svc' : LLMService) (n : String), svc'.compiledGraph = true →
       svc'.addFeatureNode n = .error .graphAlreadyCompiled) := by
  have hcompile : svc.compileGraph = .ok { svc with compiledGraph := true } := by
    simp [LLMService.compileGraph, h, hnofeat]
  have hafter : ∀ (svc' : LLMService) (n : String), svc'.compiledGraph = true →
      svc'.addFeatureNode n = .error .graphAlreadyCompiled := by
    intro svc' n hc
    simp [LLMService.addFeatureNode, hc]
  refine ⟨?_, ?_, ?_, hafter⟩
  · have hask : (svc.ask gw req w).1.compiledGraph = true := by
      unfold LLMService.ask
      rw [hcompile]
      rcases LLMService.askCore gw req w with ⟨w', res⟩
      cases res <;> rfl
    exact hafter _ n₁ hask
  · have hask : (svc.askStream gw' req' w').1.compiledGraph = true := by
      unfold LLMService.askStream
      rw [hcompile]
      rcases LLMService.askStreamCore gw' req' w' with ⟨w', res⟩
      cases res <;> rfl
    exact hafter _ n₂ hask
  · have hcond : ¬(n₃ ∈ LLMService.builtinNodes ++ svc.featureNodes
        ∨ n₃ = "__start__" ∨ n₃ = "__end__") := by
      rw [not_or]
      exact ⟨hfresh, hres⟩
    unfold LLMService.addFeatureNode
    rw [if_neg (by simp [h]), if_neg hcond]

/-- Witness for C10 on a freshly constructed service instance with a fresh
feature-node name. -/
theorem C10_witness :
    (LLMService.make.compiledGraph = false ∧
     LLMService.make.featureNodes = [] ∧
     "customC" ∉ LLMService.builtinNodes ++ LLMService.make.featureNodes ∧
     ¬("customC" = "__start__" ∨ "customC" = "__end__")) ∧
    (((LLMService.make.ask gwHiThere reqHello emptyWorld).1.addFeatureNode "customA"
        = .error .graphAlreadyCompiled) ∧
     ((LLMService.make.askStream gwTwoChunks reqHello emptyWorld).1.addFeatureNode "customB"
        = .error .graphAlreadyCompiled) ∧
     (LLMService.make.addFeatureNode "customC"
        = .ok { LLMService.make with
                featureNodes := LLMService.make.featureNodes ++ ["customC"] }) ∧
     (∀ (svc' : LLMService) (n : String), svc'.compiledGraph = true →
        svc'.addFeatureNode n = .error .graphAlreadyCompiled)) :=
  ⟨⟨rfl, rfl, by decide, by decide⟩,
   C10_graph_immutability LLMService.make gwHiThere gwTwoChunks reqHello reqHello
     emptyWorld emptyWorld "customA" "customB" "customC" rfl rfl (by decide) (by decide)⟩

/-! ### Claim C1: counterexample -/

/-- C1 counterexample: the Model Gateway returns the whitespace-only
content `" "` for a non-streaming `ask` turn, yet `ask` does NOT reject —
the engine checks `!responseContent` without trimming, so `" "` is truthy —
and the `latest` checkpoint IS advanced (from none to two refs). -/
theorem C1_counterexample :
    (LLMService.askCore gwWhitespace reqHello emptyWorld).2
        = .ok { content := " ", role := .assistant } ∧
    DynamoDBCheckpointSaver.getTuple emptyWorld.table "u" "c" "latest" = none ∧
    DynamoDBCheckpointSaver.getTuple
        (LLMService.askCore gwWhitespace reqHello emptyWorld).1.table "u" "c" "latest"
      = some (⟨[⟨0, true⟩, ⟨1, false⟩]⟩, ⟨"input", 1⟩) :=
  ⟨rfl, rfl, rfl⟩

/-! ### Claim C2: divergence of the code from the documented streaming
behavior -/

/-- C2: with Model Gateway stream chunks `["Stream", "ing response"]`, the
consumer of `askStream` observes only `{content:"", done:true}` — no content
chunk is ever yielded, because the streaming `invokeLLM` node buffers the
whole stream and returns `responseChunk: undefined`, and `graph.stream`
emits one update per node, not per model chunk. -/
theorem C2_divergence :
    (LLMService.askStreamCore gwTwoChunks reqHello emptyWorld).2
      = .ok [{ content := "", done := true }] := rfl

/-! ### Claim C3: divergence of the streaming path's history
reconstruction -/

/-- C3: on a scope whose latest checkpoint references two stored messages,
`askStream` hands the Model Gateway's `stream` an empty history — the call
passes only `thread_id` in `configurable`, so `loadMessagesFromRefs` finds
no `userId`/`conversationId` and returns `[]` — although projecting the
checkpoint's refs with the proper execution context reconstructs both
messages. -/
theorem C3_divergence :
    (LLMService.askStreamCore gwTwoChunks reqFollowUp worldAfterTurn).1.streamedHistories
      = [[]] ∧
    latestRefs worldAfterTurn.table "u" "c" = [⟨0, true⟩, ⟨1, false⟩] ∧
    (LLMService.loadMessagesFromRefs worldAfterTurn.table
        { userId := some "u", conversationId := some "c" }
        (latestRefs worldAfterTurn.table "u" "c")).1
      = [ChatMsg.human (.str "Hello"), ChatMsg.ai (.str "Hi there")] :=
  ⟨rfl, rfl, rfl⟩

/-! ### Claim C7: counterexample -/

/-- C7 counterexample: `loadMessagesFromRefs` does not always issue exactly
one bulk query — for an empty `messageRefs` input it short-circuits with
zero queries, and with a missing execution context it also returns without
querying. -/
theorem C7_counterexample :
    (LLMService.loadMessagesFromRefs worldAfterTurn.table
        { userId := some "u", conversationId := some "c" } []).2 ≠ 1 ∧
    (LLMService.loadMessagesFromRefs worldAfterTurn.table
        { userId := none, conversationId := none } [⟨0, true⟩]).2 ≠ 1 :=
  ⟨by decide, by decide⟩

/-! ### Claim C1: amended theorem -/

/-- In non-streaming mode, empty flattened model content makes `invokeLLM`
throw `EmptyModelResponse` before any store write. -/
theorem LLMService.invokeLLM_empty (gw : Gateway) (cfg : RunConfig)
    (s : GraphState) (w : World) (hs : s.isStreaming = false)
    (hrc : getMessageContent (gw.invoke
        (LLMService.loadMessagesFromRefs w.table cfg s.messageRefs).1) = "") :
    LLMService.invokeLLM gw cfg s w = (w, .error .emptyModelResponse) := by
  unfold LLMService.invokeLLM
  rw [hs]
  simp [hrc]

/-- C1 (amended): if the Model Gateway's `invoke` returns content that
flattens to the empty string — with no trimming; whitespace-only content is
NOT rejected, see the counterexample — then `ask` rejects with
`EmptyModelResponse` and performs no checkpoint advancement: for every
scope, the checkpoint store is unchanged. -/
theorem C1_empty_model_response (gw : Gateway) (req : LLMRequest) (w : World)
    (hne : req.messages ≠ [])
    (hempty : ∀ msgs, getMessageContent (gw.invoke msgs) = "") :
    (LLMService.askCore gw req w).2 = .error .emptyModelResponse ∧
    ∀ u c cid, DynamoDBCheckpointSaver.getTuple (LLMService.askCore gw req w).1.table u c cid
      = DynamoDBCheckpointSaver.getTuple w.table u c cid := by
  obtain ⟨msgs, uid, cid⟩ := req
  obtain ⟨m, rest, rfl⟩ : ∃ m rest, msgs = m :: rest := by
    cases msgs with
    | nil => exact absurd rfl hne
    | cons a l => exact ⟨a, l, rfl⟩
  simp only [LLMService.askCore, graphInvoke_eq]
  rw [LLMService.invokeLLM_empty _ _ _ _ (by rw [initChannels_eq]) (hempty _)]
  exact ⟨rfl, fun u c cid => DynamoDBCheckpointSaver.getTuple_putItem_msg _ _ _ u c cid⟩

/-- Witness for C1 on a concrete empty-answering gateway: the hypotheses
hold at `reqHello` / `emptyWorld` and the amended conclusion follows. -/
theorem C1_witness :
    (reqHello.messages ≠ [] ∧
     (∀ msgs, getMessageContent (gwEmptyResp.invoke msgs) = "")) ∧
    ((LLMService.askCore gwEmptyResp reqHello emptyWorld).2 = .error .emptyModelResponse ∧
     ∀ u c cid, DynamoDBCheckpointSaver.getTuple
         (LLMService.askCore gwEmptyResp reqHello emptyWorld).1.table u c cid
       = DynamoDBCheckpointSaver.getTuple emptyWorld.table u c cid) :=
  ⟨⟨by simp [reqHello], fun _ => rfl⟩,
   C1_empty_model_response gwEmptyResp reqHello emptyWorld (by simp [reqHello]) (fun _ => rfl)⟩

/-! ### Claim C6 -/

/-- C6: `askStream` never writes to the Message Store or the Checkpoint
Store — the table is bit-identical after the call, so `getLatest` (and every
other read) is unchanged for every scope — and any reference appearing in a
stream step's `messageRefs` update beyond the checkpoint's own refs is the
synthesized assistant ref, whose id has no stored message. -/
theorem C6_askStream_frame (gw : Gateway) (req : LLMRequest) (w : World)
    (hfresh : ∀ id v, w.table.getItem (Key.msgKey id) = some v → id < w.nextId) :
    (LLMService.askStreamCore gw req w).1.table = w.table ∧
    (∀ u c cid, DynamoDBCheckpointSaver.getTuple
        (LLMService.askStreamCore gw req w).1.table u c cid
      = DynamoDBCheckpointSaver.getTuple w.table u c cid) ∧
    (∀ w' steps, graphStreamSteps gw { userId := none, conversationId := none }
         { messageRefs := latestRefs w.table req.userId req.conversationId,
           isStreaming := true } w
         = (w', .ok steps) →
       ∀ step ∈ steps, ∀ refsU, step.update.messageRefs = some refsU →
         ∀ r ∈ refsU, r ∉ latestRefs w.table req.userId req.conversationId →
           w.table.getItem (Key.msgKey r.messageId) = none) := by
  obtain ⟨w', refs, heq, htab, hhist, hrefs⟩ := LLMService.invokeLLM_streaming gw
    ⟨none, none⟩ (initChannels ⟨latestRefs w.table req.userId req.conversationId, true⟩) w
    (by rw [initChannels_eq])
  have htabeq : (LLMService.askStreamCore gw req w).1.table = w.table := by
    simp only [LLMService.askStreamCore, graphStreamSteps_eq]
    rw [heq]
    exact htab
  refine ⟨htabeq, fun u c cid => by rw [htabeq], ?_⟩
  intro w'' steps hsteps step hstep refsU hupd r hr hnotin
  rw [graphStreamSteps_eq, heq] at hsteps
  obtain ⟨-, hsteps2⟩ := Prod.mk.injEq .. ▸ hsteps
  have hsteps3 : steps = [⟨NodeName.processMessages,
      { messageRefs := none, responseChunk := none, isStreaming := none }⟩,
      ⟨NodeName.invokeLLM,
      { messageRefs := some refs, responseChunk := none, isStreaming := none }⟩] := by
    cases hsteps
    rfl
  subst hsteps3
  simp only [List.mem_cons, List.mem_singleton, List.not_mem_nil, or_false] at hstep
  rcases hstep with h1 | h2
  · rw [h1] at hupd
    exact absurd hupd (by simp)
  · rw [h2] at hupd
    simp only [Option.some.injEq] at hupd
    subst hupd
    have hsm : (initChannels
        ⟨latestRefs w.table req.userId req.conversationId, true⟩).messageRefs
        = latestRefs w.table req.userId req.conversationId := by
      rw [initChannels_eq]
    rcases hrefs with h | h
    · rw [h, hsm] at hr
      exact absurd hr hnotin
    · rw [h, hsm] at hr
      rcases List.mem_append.mp hr with hin | hone
      · exact absurd hin hnotin
      · have : r = ⟨w.nextId, false⟩ := by simpa using hone
        subst this
        cases hget : w.table.getItem (Key.msgKey w.nextId) with
        | none => rfl
        | some v => exact absurd (hfresh _ _ hget) (Nat.lt_irrefl _)

/-- Witness for C6 on the empty world (vacuously fresh ids). -/
theorem C6_witness :
    (∀ id v, emptyWorld.table.getItem (Key.msgKey id) = some v → id < emptyWorld.nextId) ∧
    ((LLMService.askStreamCore gwTwoChunks reqHello emptyWorld).1.table = emptyWorld.table ∧
     (∀ u c cid, DynamoDBCheckpointSaver.getTuple
         (LLMService.askStreamCore gwTwoChunks reqHello emptyWorld).1.table u c cid
       = DynamoDBCheckpointSaver.getTuple emptyWorld.table u c cid) ∧
     (∀ w' steps, graphStreamSteps gwTwoChunks { userId := none, conversationId := none }
          { messageRefs := latestRefs emptyWorld.table reqHello.userId reqHello.conversationId,
            isStreaming := true } emptyWorld
          = (w', .ok steps) →
        ∀ step ∈ steps, ∀ refsU, step.update.messageRefs = some refsU →
          ∀ r ∈ refsU, r ∉ latestRefs emptyWorld.table reqHello.userId reqHello.conversationId →
            emptyWorld.table.getItem (Key.msgKey r.messageId) = none)) :=
  ⟨fun id v h => by simp [Table.getItem, emptyWorld] at h,
   C6_askStream_frame gwTwoChunks reqHello emptyWorld
     (fun id v h => by simp [Table.getItem, emptyWorld] at h)⟩

/-! ### Claim C7: amended theorem -/

/-- Generalised accumulator form of `mapGet`. -/
theorem mapGet_foldl {α : Type} (es : List (Nat × α)) (k : Nat) (acc : Option α) :
    es.foldl (fun a e => if e.1 = k then some e.2 else a) acc
      = match mapGet es k with
        | some v => some v
        | none => acc := by
  induction es generalizing acc with
  | nil => simp [mapGet]
  | cons e es ih =>
    have hunfold : mapGet (e :: es) k
        = es.foldl (fun a x => if x.1 = k then some x.2 else a)
            (if e.1 = k then some e.2 else none) := rfl
    show es.foldl _ (if e.1 = k then some e.2 else acc) = _
    rw [ih, hunfold, ih]
    cases mapGet es k with
    | some v => rfl
    | none => by_cases he : e.1 = k <;> simp [he]

/-- JS `Map` lookup through a cons: a later (deeper) entry wins; the head
entry is consulted only when no later entry matches. -/
theorem mapGet_cons {α : Type} (e : Nat × α) (es : List (Nat × α)) (k : Nat) :
    mapGet (e :: es) k
      = match mapGet es k with
        | some v => some v
        | none => if e.1 = k then some e.2 else none := by
  have hunfold : mapGet (e :: es) k
      = es.foldl (fun a x => if x.1 = k then some x.2 else a)
          (if e.1 = k then some e.2 else none) := rfl
  rw [hunfold, mapGet_foldl]

theorem mapGet_eq_none {α : Type} (es : List (Nat × α)) (k : Nat)
    (h : ∀ e ∈ es, e.1 ≠ k) : mapGet es k = none := by
  induction es with
  | nil => rfl
  | cons e es ih =>
    rw [mapGet_cons, ih (fun x hx => h x (List.mem_cons_of_mem e hx))]
    simp [h e (List.mem_cons_self e es)]

/-- Every key of the message map is the id of a `msgKey` present in the
table. -/
theorem msgMapEntry_key_mem (t : Table) (pk : Gsi1Pk) (e : Nat × (MsgContent × Bool))
    (he : e ∈ (Table.queryGSI1 t pk).filterMap msgMapEntry) :
    Key.msgKey e.1 ∈ t.map (fun kv => kv.1) := by
  obtain ⟨kv, hkv, hent⟩ := List.mem_filterMap.mp he
  have hkvt : kv ∈ t := List.mem_of_mem_filter hkv
  rcases kv with ⟨k, v⟩
  cases k with
  | ckptKey a b c => cases v <;> simp [msgMapEntry] at hent
  | msgKey i =>
    cases v with
    | ckpt st m p n => simp [msgMapEntry] at hent
    | msg m =>
      simp only [msgMapEntry, Option.some.injEq] at hent
      have he1 : e.1 = i := by rw [← hent]
      rw [he1]
      exact List.mem_map.mpr ⟨⟨Key.msgKey i, ItemVal.msg m⟩, hkvt, rfl⟩

/-- The single bulk query plus in-memory map of `loadMessagesFromRefs`
agrees with a direct per-id lookup: for a duplicate-free table, looking an
id up in the map equals reading `MSG#id` and keeping it iff the message
belongs to the queried conversation partition. -/
theorem mapGet_messageMap (t : Table) (pk : Gsi1Pk) (id : Nat)
    (hwf : (t.map (fun kv => kv.1)).Nodup) :
    mapGet ((Table.queryGSI1 t pk).filterMap msgMapEntry) id
      = match Table.getItem t (Key.msgKey id) with
        | some (ItemVal.msg m) =>
          if m.gsi1pk = pk then some (m.content, m.isFromUser) else none
        | _ => none := by
  induction t with
  | nil => rfl
  | cons kv t ih =>
    have hwf' : (t.map (fun kv => kv.1)).Nodup := (List.nodup_cons.mp hwf).2
    have hhead : kv.1 ∉ t.map (fun kv => kv.1) := (List.nodup_cons.mp hwf).1
    rcases kv with ⟨k, v⟩
    have hquery : Table.queryGSI1 ((k, v) :: t) pk
        = if v.itemGsi1Pk = pk then (k, v) :: Table.queryGSI1 t pk
          else Table.queryGSI1 t pk := by
      simp only [Table.queryGSI1, List.filter_cons, decide_eq_true_eq]
    by_cases hk : k = Key.msgKey id
    · subst hk
      have hrest : mapGet ((Table.queryGSI1 t pk).filterMap msgMapEntry) id = none := by
        apply mapGet_eq_none
        intro e hee hek
        exact hhead (hek ▸ msgMapEntry_key_mem t pk e hee)
      have hget : Table.getItem ((Key.msgKey id, v) :: t) (Key.msgKey id) = some v := by
        simp [Table.getItem, List.find?]
      rw [hget, hquery]
      cases v with
      | ckpt st m p n =>
        by_cases hpk : ItemVal.itemGsi1Pk (ItemVal.ckpt st m p n) = pk
        · rw [if_pos hpk,
            List.filterMap_cons_none
              (show msgMapEntry (Key.msgKey id, ItemVal.ckpt st m p n) = none from rfl)]
          exact hrest
        · rw [if_neg hpk]
          exact hrest
      | msg m =>
        by_cases hpk : m.gsi1pk = pk
        · rw [if_pos (show ItemVal.itemGsi1Pk (ItemVal.msg m) = pk from hpk),
            List.filterMap_cons_some
              (show msgMapEntry (Key.msgKey id, ItemVal.msg m)
                = some (id, (m.content, m.isFromUser)) from rfl),
            mapGet_cons, hrest]
          simp [hpk]
        · rw [if_neg (show ¬ ItemVal.itemGsi1Pk (ItemVal.msg m) = pk from hpk), hrest]
          simp [hpk]
    · have hget : Table.getItem ((k, v) :: t) (Key.msgKey id)
          = Table.getItem t (Key.msgKey id) := by
        simp only [Table.getItem, List.find?]
        have hd : decide (k = Key.msgKey id) = false := by simpa using hk
        rw [hd]
      rw [hget, ← ih hwf', hquery]
      by_cases hq : ItemVal.itemGsi1Pk v = pk
      · rw [if_pos hq]
        cases hent : msgMapEntry (k, v) with
        | none => rw [List.filterMap_cons_none hent]
        | some e =>
          rw [List.filterMap_cons_some hent, mapGet_cons]
          have hke : k = Key.msgKey e.1 := by
            cases k with
            | msgKey i =>
              cases v with
              | msg m =>
                simp only [msgMapEntry, Option.some.injEq] at hent
                rw [← hent]
              | ckpt st m p n => simp [msgMapEntry] at hent
            | ckptKey a b c => cases v <;> simp [msgMapEntry] at hent
          have hne : e.1 ≠ id := fun h => hk (by rw [hke, h])
          cases hmg : mapGet ((Table.queryGSI1 t pk).filterMap msgMapEntry) id with
          | some v' => rfl
          | none => simp [hne]
      · rw [if_neg hq]

/-- C7 (amended): for non-empty `messageRefs` with the execution context
present, `loadMessagesFromRefs` issues exactly one bulk query against the
conversation index, builds an id-keyed map, and returns the projection of
the refs through that map in the refs' original order, dropping every ref
without a stored message in this conversation partition rather than failing;
for empty refs (or a missing context — see the counterexample) it returns
`[]` without querying. -/
theorem C7_single_query_projection (t : Table) (cfg : RunConfig)
    (refs : List MessageReference) (uid cid : String)
    (hwf : (t.map (fun kv => kv.1)).Nodup)
    (hrefs : refs ≠ [])
    (hctx : cfg.ctx = some (uid, cid)) :
    (LLMService.loadMessagesFromRefs t cfg refs).2 = 1 ∧
    (LLMService.loadMessagesFromRefs t cfg refs).1
      = refs.filterMap (fun ref =>
          match Table.getItem t (Key.msgKey ref.messageId) with
          | some (ItemVal.msg m) =>
            if m.gsi1pk = Gsi1Pk.userChat uid cid
            then some (if ref.isFromUser then ChatMsg.human m.content
                       else ChatMsg.ai m.content)
            else none
          | _ => none) := by
  have hlen : ¬ refs.length = 0 := by simpa [List.length_eq_zero] using hrefs
  simp only [LLMService.loadMessagesFromRefs, if_neg hlen, hctx]
  refine ⟨trivial, ?_⟩
  have hpt : ∀ ref : MessageReference,
      (mapGet ((Table.queryGSI1 t (Gsi1Pk.userChat uid cid)).filterMap msgMapEntry)
         ref.messageId).map (fun message =>
           if ref.isFromUser then ChatMsg.human message.1 else ChatMsg.ai message.1)
      = match Table.getItem t (Key.msgKey ref.messageId) with
        | some (ItemVal.msg m) =>
          if m.gsi1pk = Gsi1Pk.userChat uid cid
          then some (if ref.isFromUser then ChatMsg.human m.content
                     else ChatMsg.ai m.content)
          else none
        | _ => none := by
    intro ref
    rw [mapGet_messageMap t _ _ hwf]
    cases Table.getItem t (Key.msgKey ref.messageId) with
    | none => rfl
    | some v =>
      cases v with
      | msg m => by_cases hpk : m.gsi1pk = Gsi1Pk.userChat uid cid <;> simp [hpk]
      | ckpt st m p n => rfl
  exact congrArg (fun f => List.filterMap f refs) (funext hpt)

/-- Witness for C7 (amended) on the two-message conversation table. -/
theorem C7_witness :
    ((worldAfterTurn.table.map (fun kv => kv.1)).Nodup ∧
     latestRefs worldAfterTurn.table "u" "c" ≠ [] ∧
     RunConfig.ctx { userId := some "u", conversationId := some "c" } = some ("u", "c")) ∧
    ((LLMService.loadMessagesFromRefs worldAfterTurn.table
        { userId := some "u", conversationId := some "c" }
        (latestRefs worldAfterTurn.table "u" "c")).2 = 1 ∧
     (LLMService.loadMessagesFromRefs worldAfterTurn.table
        { userId := some "u", conversationId := some "c" }
        (latestRefs worldAfterTurn.table "u" "c")).1
       = (latestRefs worldAfterTurn.table "u" "c").filterMap (fun ref =>
           match Table.getItem worldAfterTurn.table (Key.msgKey ref.messageId) with
           | some (ItemVal.msg m) =>
             if m.gsi1pk = Gsi1Pk.userChat "u" "c"
             then some (if ref.isFromUser then ChatMsg.human m.content
                        else ChatMsg.ai m.content)
             else none
           | _ => none)) :=
  ⟨⟨by decide, by decide, rfl⟩,
   C7_single_query_projection worldAfterTurn.table
     { userId := some "u", conversationId := some "c" }
     (latestRefs worldAfterTurn.table "u" "c") "u" "c"
     (by decide) (by decide) rfl⟩

/-! ### Claim C4: helper lemmas -/

theorem userAssistantPattern_length (n : Nat) :
    (userAssistantPattern n).length = 2 * n := by
  induction n with
  | zero => rfl
  | succ n ih => simp [userAssistantPattern, ih, Nat.mul_succ]

/-- Re-merging a list extended by one genuinely new reference through the
`messageRefs` reducer appends exactly that reference. -/
theorem mergeRefs_self_append (x : List MessageReference) (r : MessageReference)
    (h : ∀ z ∈ x, z.messageId ≠ r.messageId) :
    mergeRefs x (x ++ [r]) = x ++ [r] := by
  unfold mergeRefs
  rw [List.filter_append]
  have h1 : x.filter (fun s => !(x.any (fun ref => ref.messageId == s.messageId))) = [] := by
    rw [List.filter_eq_nil_iff]
    intro z hz
    simp only [Bool.not_eq_true', List.any_eq_true, not_exists]
    simp only [Bool.not_eq_true, Bool.not_eq_false]
    exact List.any_eq_true.mpr ⟨z, hz, by simp⟩
  have h2 : [r].filter (fun s => !(x.any (fun ref => ref.messageId == s.messageId))) = [r] := by
    simp only [List.filter_cons, List.filter_nil]
    have : x.any (fun ref => ref.messageId == r.messageId) = false := by
      rw [List.any_eq_false]
      intro z hz
      simp [h z hz]
    rw [this]
    rfl
  rw [h1, h2]
  simp

theorem latestRefs_putTuple (t : Table) (u c : String) (st : CkptState)
    (m : CkptMeta) (now : Nat) :
    latestRefs (DynamoDBCheckpointSaver.putTuple t u c "latest" st m now) u c
      = st.messageRefs := by
  unfold latestRefs
  rw [DynamoDBCheckpointSaver.getTuple_putTuple_same]

/-- In non-streaming mode with a usable context, a non-empty response and a
fresh assistant id, `invokeLLM` persists the assistant message and returns
the extended refs together with the response text. -/
theorem LLMService.invokeLLM_nonstreaming_ok (gw : Gateway) (cfg : RunConfig)
    (s : GraphState) (w : World) (uid cid : String)
    (hs : s.isStreaming = false)
    (hctx : cfg.ctx = some (uid, cid))
    (hrc : ¬ getMessageContent (gw.invoke
        (LLMService.loadMessagesFromRefs w.table cfg s.messageRefs).1) = "")
    (hfresh : s.messageRefs.any (fun ref => ref.messageId == w.nextId) = false) :
    LLMService.invokeLLM gw cfg s w =
      ({ w with nextId := w.nextId + 1,
                table := w.table.putItem (Key.msgKey w.nextId)
                  (assistantMsgItem (getMessageContent (gw.invoke
                    (LLMService.loadMessagesFromRefs w.table cfg s.messageRefs).1))
                    uid cid w.now) },
       .ok { messageRefs := some (s.messageRefs ++ [⟨w.nextId, false⟩]),
             responseChunk := some (getMessageContent (gw.invoke
               (LLMService.loadMessagesFromRefs w.table cfg s.messageRefs).1)),
             isStreaming := none }) := by
  unfold LLMService.invokeLLM
  rw [hs]
  simp only [Bool.false_eq_true, if_false, if_neg hrc, hctx, hfresh]
  rfl

/-- In non-streaming mode with an unusable context, `invokeLLM` throws:
either `EmptyModelResponse` (checked first) or `MissingExecutionContext`. -/
theorem LLMService.invokeLLM_nonstreaming_error (gw : Gateway) (cfg : RunConfig)
    (s : GraphState) (w : World)
    (hs : s.isStreaming = false) (hctx : cfg.ctx = none) :
    LLMService.invokeLLM gw cfg s w = (w, .error .emptyModelResponse) ∨
    LLMService.invokeLLM gw cfg s w
      = ({ w with nextId := w.nextId + 1 }, .error .missingContext) := by
  unfold LLMService.invokeLLM
  rw [hs]
  by_cases hrc : getMessageContent (gw.invoke
      (LLMService.loadMessagesFromRefs w.table cfg s.messageRefs).1) = ""
  · left
    simp [hrc]
  · right
    simp [hrc, hctx]

/-- Unfolding equation of `askCore` for a non-empty message list. -/
theorem LLMService.askCore_cons (gw : Gateway) (m : ChatMsg) (rest : List ChatMsg)
    (uid cid : String) (w : World) :
    LLMService.askCore gw ⟨m :: rest, uid, cid⟩ w =
      match graphInvoke gw { userId := some uid, conversationId := some cid }
          { messageRefs := latestRefs w.table uid cid ++ [⟨w.nextId, true⟩],
            isStreaming := false }
          { w with nextId := w.nextId + 1,
                   table := w.table.putItem (Key.msgKey w.nextId)
                     (userMsgItem m.content uid cid w.now) } with
      | (w₃, .error e) => (w₃, .error e)
      | (w₃, .ok finalState) =>
        match finalState.messageRefs.getLast? with
        | none => (w₃, .error .typeError)
        | some lastMessageRef =>
          match w₃.table.getItem (Key.msgKey lastMessageRef.messageId) with
          | none =>
            (askFinalWorld w₃ uid cid finalState.messageRefs,
             .error .assistantResponseLost)
          | some item =>
            if getMessageContent item.contentField = ""
            then (askFinalWorld w₃ uid cid finalState.messageRefs,
                  .error .emptyAssistantResponse)
            else (askFinalWorld w₃ uid cid finalState.messageRefs,
                  .ok { content := getMessageContent item.contentField,
                        role := .assistant }) := rfl

/-- Full computation of a successful `ask` turn: with a usable scope, a
non-empty model answer, and checkpoint refs below the id counter, `ask`
persists the user and assistant messages, extends the refs by the user ref
and the fresh assistant ref, overwrites the `latest` checkpoint with them,
and returns the assistant content. -/
theorem LLMService.askCore_ok_eq (gw : Gateway) (m : ChatMsg) (rest : List ChatMsg)
    (uid cid : String) (w : World) (rc : String)
    (hemp : ¬(uid = "" ∨ cid = ""))
    (hrceq : rc = getMessageContent (gw.invoke
        (LLMService.loadMessagesFromRefs
          (Table.putItem w.table (Key.msgKey w.nextId) (userMsgItem m.content uid cid w.now))
          { userId := some uid, conversationId := some cid }
          (latestRefs w.table uid cid ++ [⟨w.nextId, true⟩])).1))
    (hrc : ¬ rc = "")
    (hbound : ∀ r ∈ latestRefs w.table uid cid, r.messageId < w.nextId) :
    LLMService.askCore gw ⟨m :: rest, uid, cid⟩ w
      = (askFinalWorld
          { w with nextId := w.nextId + 1 + 1,
                   table := Table.putItem
                     (Table.putItem w.table (Key.msgKey w.nextId)
                       (userMsgItem m.content uid cid w.now))
                     (Key.msgKey (w.nextId + 1))
                     (assistantMsgItem rc uid cid w.now) }
          uid cid
          ((latestRefs w.table uid cid ++ [⟨w.nextId, true⟩]) ++ [⟨w.nextId + 1, false⟩]),
         .ok { content := rc, role := .assistant }) := by
  have hctx : (⟨some uid, some cid⟩ : RunConfig).ctx = some (uid, cid) := if_neg hemp
  have hne : ∀ z ∈ latestRefs w.table uid cid ++ [⟨w.nextId, true⟩],
      z.messageId ≠ w.nextId + 1 := by
    intro z hz
    rcases List.mem_append.mp hz with hzR | hzU
    · exact Nat.ne_of_lt (Nat.lt_trans (hbound z hzR) (Nat.lt_succ_self _))
    · have hzu : z = ⟨w.nextId, true⟩ := by simpa using hzU
      rw [hzu]
      exact Nat.ne_of_lt (Nat.lt_succ_self _)
  have hfresh : (initChannels
        { messageRefs := latestRefs w.table uid cid ++ [⟨w.nextId, true⟩],
          isStreaming := false }).messageRefs.any
        (fun ref => ref.messageId == w.nextId + 1) = false := by
    rw [initChannels_eq]
    rw [List.any_eq_false]
    intro z hz
    simp only [beq_iff_eq]
    exact hne z hz
  have hrc' : ¬ getMessageContent (gw.invoke
      (LLMService.loadMessagesFromRefs
        (Table.putItem w.table (Key.msgKey w.nextId) (userMsgItem m.content uid cid w.now))
        (⟨some uid, some cid⟩ : RunConfig)
        (initChannels
          { messageRefs := latestRefs w.table uid cid ++ [⟨w.nextId, true⟩],
            isStreaming := false }).messageRefs).1) = "" := by
    rw [initChannels_eq]
    rw [← hrceq] at *
    exact hrc
  rw [LLMService.askCore_cons, graphInvoke_eq]
  rw [LLMService.invokeLLM_nonstreaming_ok gw ⟨some uid, some cid⟩
    (initChannels
      { messageRefs := latestRefs w.table uid cid ++ [⟨w.nextId, true⟩],
        isStreaming := false })
    { w with nextId := w.nextId + 1,
             table := Table.putItem w.table (Key.msgKey w.nextId)
               (userMsgItem m.content uid cid w.now) }
    uid cid (by rw [initChannels_eq]) hctx hrc' hfresh]
  rw [initChannels_eq]
  dsimp only
  rw [← hrceq]
  have hmerge : mergeRefs (latestRefs w.table uid cid ++ [⟨w.nextId, true⟩])
      ((latestRefs w.table uid cid ++ [⟨w.nextId, true⟩]) ++ [⟨w.nextId + 1, false⟩])
      = (latestRefs w.table uid cid ++ [⟨w.nextId, true⟩]) ++ [⟨w.nextId + 1, false⟩] :=
    mergeRefs_self_append _ _ hne
  have happ : (applyUpdate
      { messageRefs := latestRefs w.table uid cid ++ [⟨w.nextId, true⟩],
        responseChunk := none, isStreaming := false }
      { messageRefs := some ((latestRefs w.table uid cid ++ [⟨w.nextId, true⟩])
          ++ [⟨w.nextId + 1, false⟩]),
        responseChunk := some rc, isStreaming := none }).messageRefs
      = mergeRefs (latestRefs w.table uid cid ++ [⟨w.nextId, true⟩])
          ((latestRefs w.table uid cid ++ [⟨w.nextId, true⟩]) ++ [⟨w.nextId + 1, false⟩]) :=
    rfl
  rw [happ, hmerge]
  rw [List.getLast?_concat]
  dsimp only
  rw [Table.getItem_putItem_same]
  dsimp only [assistantMsgItem, ItemVal.contentField, getMessageContent]
  rw [if_neg hrc]

theorem nodup_append_two (l : List Nat) (a b : Nat) (hl : l.Nodup)
    (hba : ∀ x ∈ l, x < a) (hab : a < b) : ((l ++ [a]) ++ [b]).Nodup := by
  rw [List.append_assoc, List.nodup_append]
  refine ⟨hl, by simp [Nat.ne_of_lt hab], ?_⟩
  intro x hx hx2
  simp only [List.singleton_append, List.mem_cons, List.mem_singleton,
    List.not_mem_nil, or_false] at hx2
  rcases hx2 with rfl | rfl
  · exact absurd (hba x hx) (Nat.lt_irrefl x)
  · exact Nat.lt_asymm hab (hba x hx)

/-- The checkpoint written at the end of a successful turn satisfies the
next turn's invariant. -/
theorem ckptInv_askFinalWorld (w₃ : World) (uid cid : String)
    (R : List MessageReference) (k : Nat) (ua aa : Nat)
    (hpat : R.map (fun r => r.isFromUser) = userAssistantPattern k)
    (hnodup : (R.map (fun r => r.messageId)).Nodup)
    (hbound : ∀ r ∈ R, r.messageId < ua)
    (hua : ua < aa) (haa : aa < w₃.nextId) :
    ckptInv (askFinalWorld w₃ uid cid ((R ++ [⟨ua, true⟩]) ++ [⟨aa, false⟩])).table
      uid cid (k + 1)
      (askFinalWorld w₃ uid cid ((R ++ [⟨ua, true⟩]) ++ [⟨aa, false⟩])).nextId := by
  have htab : (askFinalWorld w₃ uid cid ((R ++ [⟨ua, true⟩]) ++ [⟨aa, false⟩])).table
      = DynamoDBCheckpointSaver.putTuple w₃.table uid cid "latest"
          ⟨(R ++ [⟨ua, true⟩]) ++ [⟨aa, false⟩]⟩ ⟨"input", 1⟩ w₃.now := rfl
  unfold ckptInv
  rw [htab, latestRefs_putTuple]
  refine ⟨?_, ?_, ?_, ?_⟩
  · simp only [List.map_append, List.map_cons, List.map_nil, hpat]
    show userAssistantPattern k ++ [true] ++ [false] = userAssistantPattern (k + 1)
    simp [userAssistantPattern]
  · simp only [List.map_append, List.map_cons, List.map_nil]
    apply nodup_append_two _ _ _ hnodup
    · intro x hx
      obtain ⟨r, hr, rfl⟩ := List.mem_map.mp hx
      exact hbound r hr
    · exact hua
  · intro r hr
    rcases List.mem_append.mp hr with hr1 | hr2
    · rcases List.mem_append.mp hr1 with hrR | hru
      · exact Nat.lt_trans (Nat.lt_trans (hbound r hrR) hua) haa
      · have hr' : r = ⟨ua, true⟩ := by simpa using hru
        rw [hr']
        exact Nat.lt_trans hua haa
    · have hr' : r = ⟨aa, false⟩ := by simpa using hr2
      rw [hr']
      exact haa
  · intro _
    exact ⟨⟨"input", 1⟩, DynamoDBCheckpointSaver.getTuple_putTuple_same _ _ _ _ _ _ _⟩

/-- One successful `ask` call advances the checkpoint invariant by one
turn. -/
theorem askCore_step (gw : Gateway) (req : LLMRequest) (w : World) (k : Nat)
    (hinv : ckptInv w.table req.userId req.conversationId k w.nextId)
    (resp : LLMResponse)
    (hres : (LLMService.askCore gw req w).2 = .ok resp) :
    ckptInv (LLMService.askCore gw req w).1.table req.userId req.conversationId
      (k + 1) (LLMService.askCore gw req w).1.nextId := by
  obtain ⟨msgs, uid, cid⟩ := req
  obtain ⟨hpat, hnodup, hbound, hexists⟩ := hinv
  cases msgs with
  | nil => exact absurd hres (by simp [LLMService.askCore])
  | cons m rest =>
    by_cases hemp : uid = "" ∨ cid = ""
    · exfalso
      have hctx : (⟨some uid, some cid⟩ : RunConfig).ctx = none := if_pos hemp
      rw [LLMService.askCore_cons, graphInvoke_eq] at hres
      rcases LLMService.invokeLLM_nonstreaming_error gw ⟨some uid, some cid⟩
          (initChannels
            { messageRefs := latestRefs w.table uid cid ++ [⟨w.nextId, true⟩],
              isStreaming := false })
          { w with nextId := w.nextId + 1,
                   table := Table.putItem w.table (Key.msgKey w.nextId)
                     (userMsgItem m.content uid cid w.now) }
          (by rw [initChannels_eq]) hctx with h | h <;>
        rw [h] at hres <;> simp at hres
    · by_cases hrc : getMessageContent (gw.invoke
          (LLMService.loadMessagesFromRefs
            (Table.putItem w.table (Key.msgKey w.nextId)
              (userMsgItem m.content uid cid w.now))
            { userId := some uid, conversationId := some cid }
            (latestRefs w.table uid cid ++ [⟨w.nextId, true⟩])).1) = ""
      · exfalso
        rw [LLMService.askCore_cons, graphInvoke_eq] at hres
        have hrc2 : getMessageContent (gw.invoke
            (LLMService.loadMessagesFromRefs
              (Table.putItem w.table (Key.msgKey w.nextId)
                (userMsgItem m.content uid cid w.now))
              (⟨some uid, some cid⟩ : RunConfig)
              (initChannels
                { messageRefs := latestRefs w.table uid cid ++ [⟨w.nextId, true⟩],
                  isStreaming := false }).messageRefs).1) = "" := by
          rw [initChannels_eq]
          exact hrc
        rw [LLMService.invokeLLM_empty gw ⟨some uid, some cid⟩
          (initChannels
            { messageRefs := latestRefs w.table uid cid ++ [⟨w.nextId, true⟩],
              isStreaming := false })
          { w with nextId := w.nextId + 1,
                   table := Table.putItem w.table (Key.msgKey w.nextId)
                     (userMsgItem m.content uid cid w.now) }
          (by rw [initChannels_eq]) hrc2] at hres
        simp at hres
      · rw [LLMService.askCore_ok_eq gw m rest uid cid w
          (getMessageContent (gw.invoke
            (LLMService.loadMessagesFromRefs
              (Table.putItem w.table (Key.msgKey w.nextId)
                (userMsgItem m.content uid cid w.now))
              { userId := some uid, conversationId := some cid }
              (latestRefs w.table uid cid ++ [⟨w.nextId, true⟩])).1))
          hemp rfl hrc hbound]
        exact ckptInv_askFinalWorld _ uid cid (latestRefs w.table uid cid) k
          w.nextId (w.nextId + 1) hpat hnodup hbound
          (Nat.lt_succ_self _) (Nat.lt_succ_self _)

/-- The invariant is preserved across any successful sequence of `ask`
calls on one scope. -/
theorem askSeq_inv (gw : Gateway) (u c : String) (reqs : List LLMRequest) :
    ∀ (w : World) (k : Nat),
      (∀ r ∈ reqs, r.userId = u ∧ r.conversationId = c) →
      ckptInv w.table u c k w.nextId →
      (askSeq gw reqs w).2 = true →
      ckptInv (askSeq gw reqs w).1.table u c (k + reqs.length)
        (askSeq gw reqs w).1.nextId := by
  induction reqs with
  | nil =>
    intro w k _ hinv _
    simpa [askSeq] using hinv
  | cons r rest ih =>
    intro w k hscope hinv hok
    have hsr := hscope r (List.mem_cons_self r rest)
    rcases hr : LLMService.askCore gw r w with ⟨w', res⟩
    have hseq : askSeq gw (r :: rest) w
        = match (w', res) with
          | (w', .ok _) => askSeq gw rest w'
          | (w', .error _) => (w', false) := by
      rw [← hr]
      rfl
    cases res with
    | error e =>
      rw [hseq] at hok
      simp at hok
    | ok resp =>
      rw [hseq] at hok ⊢
      have hinv' : ckptInv w.table r.userId r.conversationId k w.nextId := by
        rw [hsr.1, hsr.2]
        exact hinv
      have hstep := askCore_step gw r w k hinv' resp (by rw [hr])
      rw [hr] at hstep
      rw [hsr.1, hsr.2] at hstep
      have hres := ih w' (k + 1)
        (fun x hx => hscope x (List.mem_cons_of_mem r hx)) hstep hok
      have harith : k + 1 + rest.length = k + (r :: rest).length := by
        simp [List.length_cons]
        omega
      rw [← harith]
      exact hres

/-! ### Claim C4 -/

/-- C4: for every N ≥ 1 and every sequence of N sequential successful `ask`
calls on one (userId, conversationId) starting from a scope with no
checkpoint, the final `latest` checkpoint's `messageRefs` has length exactly
2N — one user ref and one assistant ref per turn in conversational order
(the `isFromUser` flags read `true, false` repeated N times) — and contains
no duplicate `messageId`. -/
theorem C4_append_only (gw : Gateway) (u c : String) (reqs : List LLMRequest)
    (w : World)
    (hscope : ∀ r ∈ reqs, r.userId = u ∧ r.conversationId = c)
    (hinit : DynamoDBCheckpointSaver.getTuple w.table u c "latest" = none)
    (hne : reqs ≠ [])
    (hok : (askSeq gw reqs w).2 = true) :
    ∃ st meta, DynamoDBCheckpointSaver.getTuple (askSeq gw reqs w).1.table u c "latest"
        = some (st, meta) ∧
      st.messageRefs.length = 2 * reqs.length ∧
      st.messageRefs.map (fun r => r.isFromUser) = userAssistantPattern reqs.length ∧
      (st.messageRefs.map (fun r => r.messageId)).Nodup := by
  have hlat0 : latestRefs w.table u c = [] := by
    unfold latestRefs
    rw [hinit]
  have hinv0 : ckptInv w.table u c 0 w.nextId := by
    refine ⟨?_, ?_, ?_, ?_⟩
    · rw [hlat0]
      rfl
    · rw [hlat0]
      exact List.nodup_nil
    · intro r hr
      rw [hlat0] at hr
      cases hr
    · intro h
      exact absurd rfl h
  have hfin := askSeq_inv gw u c reqs w 0 hscope hinv0 hok
  rw [Nat.zero_add] at hfin
  obtain ⟨hpat, hnodup, -, hexists⟩ := hfin
  have hlen : reqs.length ≠ 0 := by simpa [List.length_eq_zero] using hne
  obtain ⟨meta, hmeta⟩ := hexists hlen
  refine ⟨⟨latestRefs (askSeq gw reqs w).1.table u c⟩, meta, hmeta, ?_, hpat, hnodup⟩
  have hlen2 := congrArg List.length hpat
  simpa [List.length_map, userAssistantPattern_length] using hlen2

/-- Witness for C4: two successful turns on a fresh scope yield a 4-ref
checkpoint with alternating user/assistant refs and distinct ids. -/
theorem C4_witness :
    ((∀ r ∈ [reqHello, reqFollowUp], r.userId = "u" ∧ r.conversationId = "c") ∧
     DynamoDBCheckpointSaver.getTuple emptyWorld.table "u" "c" "latest" = none ∧
     ([reqHello, reqFollowUp] ≠ ([] : List LLMRequest)) ∧
     (askSeq gwHiThere [reqHello, reqFollowUp] emptyWorld).2 = true) ∧
    (∃ st meta, DynamoDBCheckpointSaver.getTuple
        (askSeq gwHiThere [reqHello, reqFollowUp] emptyWorld).1.table "u" "c" "latest"
        = some (st, meta) ∧
      st.messageRefs.length = 2 * ([reqHello, reqFollowUp] : List LLMRequest).length ∧
      st.messageRefs.map (fun r => r.isFromUser)
        = userAssistantPattern ([reqHello, reqFollowUp] : List LLMRequest).length ∧
      (st.messageRefs.map (fun r => r.messageId)).Nodup) :=
  ⟨⟨by simp [reqHello, reqFollowUp], rfl, by simp, rfl⟩,
   C4_append_only gwHiThere "u" "c" [reqHello, reqFollowUp] emptyWorld
     (by simp [reqHello, reqFollowUp]) rfl (by simp) rfl⟩
